import Mathlib

/-!
Verification development for the market-analysis repository's state-aware
adaptive signal engine (`src/market_analysis.py` together with
`src/config/technical_indicators.py`).

Shallow embedding conventions:
* Python floats are modelled as exact rationals (`ℚ`); IEEE rounding is out of
  scope of the claims checked here.  Non-finite numpy results (`inf`/`nan`
  produced by numpy float division, which warns rather than raises) are
  modelled by `none : Option ℚ`; all theorems stay on paths where only the
  `nan`-propagation behaviour of non-finite values matters.
* Python exceptions are modelled by `Except Err`.
* Third-party numerics that the module calls (the `ta` indicator library, the
  feature/StandardScaler/PCA pipeline, `sklearn.KMeans`, and `pandas`
  `Series.std`, whose value is a real square root and hence not rational) are
  modelled as explicit function parameters; theorems that depend on their
  behaviour carry the documented characterising hypotheses (for instance
  `KMeansValid`, or `σ ^ 2 = sampleVar hist` for the standard deviation).
* Python dict entries that may be absent (`oversold`/`overbought` keys, which
  the base configuration of `technical_indicators.py` does not contain) are
  modelled as `Option` fields; reading an absent key is a `KeyError`.
-/

set_option maxRecDepth 1000000

namespace MarketAnalysisSpec

/-- Python exceptions raised (or raisable) by the analysis module. -/
inductive Err where
  | valueError (msg : String)
  | keyError (key : String)
  | indexError
  | typeError
deriving DecidableEq, Repr

/-- One OHLCV bar; the signal/state pipeline only reads `close` and `volume`. -/
structure Bar where
  close : ℚ
  volume : ℚ
deriving DecidableEq, Repr

/-- The technical-indicator series stored in `self.technical_indicators`
(the four series read by `generate_trading_signals`; all are time-aligned
with the data by construction of the `ta` library). -/
structure TechInd where
  rsi : List ℚ
  macd : List ℚ
  macd_signal : List ℚ
  stoch_k : List ℚ
deriving DecidableEq, Repr

/-- numpy float division: division by zero produces a non-finite value
(`inf`/`nan`, with a suppressed RuntimeWarning), not an exception;
non-finite results are modelled as `none`. -/
def npDiv (a b : ℚ) : Option ℚ := if b = 0 then none else some (a / b)

/-- The `pandas`/`numpy` mean of a list, `sum / length`
(only ever applied to non-empty lists on the paths exercised here). -/
def listMean (l : List ℚ) : ℚ := l.sum / (l.length : ℚ)

/-- The slice `l[a:b]` (for `0 ≤ a ≤ b`). -/
def listSlice (l : List ℚ) (a b : ℕ) : List ℚ := (l.take b).drop a

/-- Sample variance with `ddof = 1`, the square of what `pandas`
`Series.std()` returns; used to characterise the std oracle in hypotheses. -/
def sampleVar (l : List ℚ) : ℚ :=
  let n : ℚ := l.length
  let m := l.sum / n
  (l.map (fun x => (x - m) * (x - m))).sum / (n - 1)

/-! ## Indicator configuration (`technical_indicators.py`)

Each per-indicator structure carries exactly the keys of the corresponding
dict in `get_base_config`; `oversold`/`overbought` are `Option` because the
base configuration does not contain them (they are only written by the
`thresholds` override in `generate_trading_signals`). -/

structure RsiConfig where
  window : ℕ
  threshold_percentile : ℚ
  weight : ℚ
  oversold : Option ℚ
  overbought : Option ℚ
deriving DecidableEq, Repr

structure MacdConfig where
  fast_period : ℕ
  slow_period : ℕ
  signal_period : ℕ
  threshold_std : ℚ
  weight : ℚ
deriving DecidableEq, Repr

structure StochConfig where
  k_period : ℕ
  d_period : ℕ
  threshold_percentile : ℚ
  weight : ℚ
  oversold : Option ℚ
  overbought : Option ℚ
deriving DecidableEq, Repr

structure BollingerConfig where
  window : ℕ
  num_std : ℚ
deriving DecidableEq, Repr

/-- The `base_config` dict: keys `rsi`, `macd`, `stochastic`, `bollinger`. -/
structure BaseConfig where
  rsi : RsiConfig
  macd : MacdConfig
  stochastic : StochConfig
  bollinger : BollingerConfig
deriving DecidableEq, Repr

/-- Embeds `get_base_config()` (`technical_indicators.py:5-33`). -/
def baseConfig : BaseConfig where
  rsi := { window := 14, threshold_percentile := 90, weight := 1,
           oversold := none, overbought := none }
  macd := { fast_period := 12, slow_period := 26, signal_period := 9,
            threshold_std := 1, weight := 1 }
  stochastic := { k_period := 14, d_period := 3, threshold_percentile := 90,
                  weight := 1, oversold := none, overbought := none }
  bollinger := { window := 20, num_std := 2 }

/-- Per-state characteristics record (`identify_market_states`,
`market_analysis.py:214-221`). -/
structure StateChars where
  volatility : ℚ
  trend_strength : ℚ
  volume : ℚ
  return_dispersion : ℚ
  component_1 : ℚ
  component_2 : ℚ
deriving DecidableEq, Repr

/-- Per-bar raw feature row (`market_analysis.py:176-181`). -/
structure FeatureRow where
  volatility : ℚ
  trend_strength : ℚ
  volume : ℚ
  return_dispersion : ℚ
deriving DecidableEq, Repr

/-- A 2-component PCA projection of a feature row. -/
abbrev PcaPoint := ℚ × ℚ

/-- The feature keys of the `adjustment_factors` dict
(`get_state_adjustment_factors`). -/
inductive StateFeature where
  | volatility
  | trend_strength
  | volume
deriving DecidableEq, Repr

/-- Embeds `self.current_characteristics[feature]` (`market_analysis.py:134`). -/
def featureValue (ch : StateChars) : StateFeature → ℚ
  | .volatility => ch.volatility
  | .trend_strength => ch.trend_strength
  | .volume => ch.volume

/-- Embeds `get_state_adjustment_factors()` (`technical_indicators.py:35-56`): per
feature, the dict of named scaling closures.  The inner keys are kept as the
literal strings of the source, because `get_state_adjusted_config` looks them
up by string concatenation (`f'{indicator}_threshold_scale'`), and the
`'stoch_threshold_scale'` key spelled here never matches the
`'stochastic_threshold_scale'` key that the loop constructs. -/
def adjustmentFactors : List (StateFeature × List (String × (ℚ → ℚ))) :=
  [ (.volatility,
      [ ("rsi_threshold_scale", fun x => 1 + (1/2) * x),
        ("rsi_weight_scale", fun x => 1 / (1 + x)),
        ("macd_threshold_scale", fun x => 1 + x),
        ("stoch_threshold_scale", fun x => 1 + (1/2) * x) ]),
    (.trend_strength,
      [ ("rsi_weight_scale", fun x => 1 / (1 + |x|)),
        ("macd_weight_scale", fun x => 1 + |x|),
        ("macd_threshold_scale", fun x => 1 - (3/10) * |x|) ]),
    (.volume,
      [ ("signal_confidence_scale", fun x => 1 + (1/5) * x) ]) ]

/-- Dict lookup of a scaling closure by its string key. -/
def lookupScale (adj : List (String × (ℚ → ℚ))) (key : String) : Option (ℚ → ℚ) :=
  (adj.find? (fun p => p.1 == key)).map (fun p => p.2)

/-- The loop body of `get_state_adjusted_config` (`market_analysis.py:136-148`)
specialised to the `rsi` entry: the `rsi` dict has a `threshold_percentile`
key and no `threshold_std` key, so only the former branch of lines 140-143
can fire. -/
def adjustRsi (adj : List (String × (ℚ → ℚ))) (fv : ℚ) (c : RsiConfig) : RsiConfig :=
  let c1 := match lookupScale adj "rsi_threshold_scale" with
    | some f => { c with threshold_percentile := c.threshold_percentile * f fv }
    | none => c
  match lookupScale adj "rsi_weight_scale" with
  | some f => { c1 with weight := c1.weight * f fv }
  | none => c1

/-- Loop body for the `macd` entry: the `macd` dict has a `threshold_std` key
and no `threshold_percentile` key. -/
def adjustMacd (adj : List (String × (ℚ → ℚ))) (fv : ℚ) (c : MacdConfig) : MacdConfig :=
  let c1 := match lookupScale adj "macd_threshold_scale" with
    | some f => { c with threshold_std := c.threshold_std * f fv }
    | none => c
  match lookupScale adj "macd_weight_scale" with
  | some f => { c1 with weight := c1.weight * f fv }
  | none => c1

/-- Loop body for the `stochastic` entry.  The constructed keys are
`"stochastic_threshold_scale"` and `"stochastic_weight_scale"` (f-string over
the dict key `stochastic`); the adjustment table only ever contains
`"stoch_threshold_scale"`. -/
def adjustStoch (adj : List (String × (ℚ → ℚ))) (fv : ℚ) (c : StochConfig) : StochConfig :=
  let c1 := match lookupScale adj "stochastic_threshold_scale" with
    | some f => { c with threshold_percentile := c.threshold_percentile * f fv }
    | none => c
  match lookupScale adj "stochastic_weight_scale" with
  | some f => { c1 with weight := c1.weight * f fv }
  | none => c1

/-- Loop body for the `bollinger` entry: its dict has neither a
`threshold_percentile`, `threshold_std` nor `weight` key, and no
`bollinger_*` key exists in any adjustment table, so it is never changed. -/
def adjustBollinger (_adj : List (String × (ℚ → ℚ))) (_fv : ℚ)
    (c : BollingerConfig) : BollingerConfig := c

/-- One iteration of the outer loop of `get_state_adjusted_config`
(`market_analysis.py:133-148`): apply one feature's adjustment dict to every
indicator entry. -/
def applyFeatureAdjustments (cfg : BaseConfig) (adj : List (String × (ℚ → ℚ)))
    (fv : ℚ) : BaseConfig where
  rsi := adjustRsi adj fv cfg.rsi
  macd := adjustMacd adj fv cfg.macd
  stochastic := adjustStoch adj fv cfg.stochastic
  bollinger := adjustBollinger adj fv cfg.bollinger

/-- The full adjustment computation of `get_state_adjusted_config`
(`market_analysis.py:129-150`): fold the three feature passes (dict iteration
order) over the configuration values. -/
def adjustedConfig (cfg : BaseConfig) (ch : StateChars) : BaseConfig :=
  adjustmentFactors.foldl
    (fun acc p => applyFeatureAdjustments acc p.2 (featureValue ch p.1)) cfg

/-! ## The analyzer object -/

/-- The mutable state of a `MarketAnalyzer` instance that the verified
methods read or write.  `data` is `none` until `fetch_data` succeeds;
`technicalIndicators` is `none` while `self.technical_indicators` is the
empty (falsy) dict; `stateCharacteristics` is a keyed list standing for the
`state_characteristics` dict. -/
structure Analyzer where
  data : Option (List Bar)
  technicalIndicators : Option TechInd
  states : List ℕ
  stateCharacteristics : Option (List (ℕ × StateChars))
  currentState : Option ℕ
  currentCharacteristics : Option StateChars
  baseConfig : BaseConfig
  minSignalConfidence : ℚ
deriving DecidableEq, Repr

/-- Embeds `MarketAnalyzer.get_state_adjusted_config` (`market_analysis.py:122-150`).

The source takes a *shallow* `dict.copy()` of the stored base configuration
(line 129); the nested per-indicator dicts remain shared, and every scaled
parameter is updated in place with `*=` on those shared inner dicts.  The
returned outer dict is fresh, but all parameter values live in the shared
inner dicts, so after the call the stored base configuration carries the
scaled values.  This is modelled by returning both the updated analyzer
(whose `baseConfig` now holds the scaled values) and the returned effective
configuration. -/
def get_state_adjusted_config (a : Analyzer) : Analyzer × BaseConfig :=
  match a.currentState, a.currentCharacteristics with
  | some _, some ch =>
      let eff := adjustedConfig a.baseConfig ch
      ({ a with baseConfig := eff }, eff)
  | _, _ =>
      -- `self.current_state is None or not hasattr(self, 'current_characteristics')`:
      -- the stored base configuration is returned as-is (lines 126-127).
      (a, a.baseConfig)

/-! ## State identification (`identify_market_states`, `market_analysis.py:152-225`)

The numeric feature pipeline (rolling statistics, `StandardScaler`, `PCA`) is
third-party numerics and is modelled as an explicit `pipeline` parameter
producing the per-bar raw feature rows and the projected points; `KMeans`
(with its fixed `random_state=42`, hence a deterministic function) is the
`kmeans` parameter.  Everything from line 192 on (the degenerate-cluster
guard, the clustering call, the characteristics dict and the current-state
selection) is embedded directly. -/

/-- The result fields written by `identify_market_states`. -/
structure IdentifyOut where
  states : List ℕ
  characteristics : List (ℕ × StateChars)
  currentState : ℕ
  currentCharacteristics : StateChars
deriving DecidableEq, Repr

/-- The characteristics record of one state (`market_analysis.py:208-221`):
means of the raw features and of the projected coordinates over the bars
assigned to the state.  (The `safe_mean` guard of the source is unreachable
because states with an empty mask are skipped before it runs.) -/
def charsOf (features : List FeatureRow) (pca : List PcaPoint)
    (states : List ℕ) (s : ℕ) : StateChars :=
  let sel := ((states.zip (features.zip pca)).filter (fun p => p.1 == s)).map
    (fun p => p.2)
  { volatility := listMean (sel.map (fun q => q.1.volatility))
    trend_strength := listMean (sel.map (fun q => q.1.trend_strength))
    volume := listMean (sel.map (fun q => q.1.volume))
    return_dispersion := listMean (sel.map (fun q => q.1.return_dispersion))
    component_1 := listMean (sel.map (fun q => q.2.1))
    component_2 := listMean (sel.map (fun q => q.2.2)) }

/-- Embeds `market_analysis.py:192-225`, from the degenerate-cluster guard to the
current-state assignment.  `np.unique(..., axis=0)` only contributes its
row count, `pca.dedup.length`; `states[-1]` on an empty array is an
`IndexError`; the dict access `state_characteristics[current_state]` is a
`KeyError` when the key is absent. -/
def identifyCore (kmeans : ℕ → List PcaPoint → List ℕ) (pca : List PcaPoint)
    (features : List FeatureRow) (nStates : ℕ) : Except Err IdentifyOut :=
  let actual := min nStates pca.dedup.length
  let states := kmeans actual pca
  let characteristics := (List.range actual).filterMap (fun s =>
    if states.count s = 0 then none else some (s, charsOf features pca states s))
  match states.getLast? with
  | none => .error .indexError
  | some cur =>
    match characteristics.lookup cur with
    | none => .error (.keyError "current_state")
    | some cc =>
      .ok { states := states, characteristics := characteristics,
            currentState := cur, currentCharacteristics := cc }

/-- Embeds `MarketAnalyzer.identify_market_states` (`market_analysis.py:152-225`):
raises if no data is loaded, otherwise runs the feature pipeline and the
clustering step and stores the results on the instance. -/
def identify_market_states (pipeline : List Bar → List FeatureRow × List PcaPoint)
    (kmeans : ℕ → List PcaPoint → List ℕ) (a : Analyzer) (nStates : ℕ) :
    Except Err Analyzer :=
  match a.data with
  | none => .error (.valueError "No data available. Call fetch_data first.")
  | some d =>
    match identifyCore kmeans (pipeline d).2 (pipeline d).1 nStates with
    | .error e => .error e
    | .ok out =>
      .ok { a with states := out.states
                   stateCharacteristics := some out.characteristics
                   currentState := some out.currentState
                   currentCharacteristics := some out.currentCharacteristics }

/-- Embeds `MarketAnalyzer.calculate_technical_indicators`
(`market_analysis.py:227-270`): raises if no data is loaded, otherwise fills
`self.technical_indicators` with the `ta`-library series (abstracted as the
`calcInd` oracle over the loaded data). -/
def calculate_technical_indicators (calcInd : List Bar → TechInd) (a : Analyzer) :
    Except Err Analyzer :=
  match a.data with
  | none => .error (.valueError "No data available. Call fetch_data first.")
  | some d => .ok { a with technicalIndicators := some (calcInd d) }

/-! ## Signal generation (`generate_trading_signals`, `market_analysis.py:272-369`) -/

/-- Embeds `market_analysis.py:319`:
`1 if rsi < oversold else -1 if rsi > overbought else 0`. -/
def rsiDirSignal (oversold overbought v : ℚ) : ℚ :=
  if v < oversold then 1 else if overbought < v then -1 else 0

/-- Embeds `market_analysis.py:330`: `1 if macd_diff > macd_threshold else
-1 if macd_diff < -macd_threshold else 0` (this rebinds the name
`macd_signal` in the source). -/
def macdDirSignal (threshold diff : ℚ) : ℚ :=
  if threshold < diff then 1 else if diff < -threshold then -1 else 0

/-- Embeds `market_analysis.py:340`:
`1 if stoch_k < oversold else -1 if stoch_k > overbought else 0`. -/
def stochDirSignal (oversold overbought v : ℚ) : ℚ :=
  if v < oversold then 1 else if overbought < v then -1 else 0

/-- Embeds `market_analysis.py:325`: the trailing `H`-bar slice
`(macd - macd_signal).iloc[i-100:i]` of the element-wise difference of the
MACD line and its signal line. -/
def macdHist (t : TechInd) (i : ℕ) : List ℚ :=
  listSlice (List.zipWith (fun a b => a - b) t.macd t.macd_signal) (i - 100) i

/-- The `thresholds` override object (`SignalThresholds`; fields read in
`market_analysis.py:289-301`). -/
structure Thresholds where
  rsi_oversold : ℚ
  rsi_overbought : ℚ
  rsi_weight : ℚ
  macd_threshold_std : ℚ
  macd_weight : ℚ
  stoch_oversold : ℚ
  stoch_overbought : ℚ
  stoch_weight : ℚ
  min_confidence : ℚ
deriving DecidableEq, Repr

/-- The config mutations of `market_analysis.py:289-299` (the override also
assigns `indicator_config['min_signal_confidence']`, handled at the caller). -/
def applyThresholds (cfg : BaseConfig) (th : Thresholds) : BaseConfig where
  rsi := { cfg.rsi with oversold := some th.rsi_oversold
                        overbought := some th.rsi_overbought
                        weight := th.rsi_weight }
  macd := { cfg.macd with threshold_std := th.macd_threshold_std
                          weight := th.macd_weight }
  stochastic := { cfg.stochastic with oversold := some th.stoch_oversold
                                      overbought := some th.stoch_overbought
                                      weight := th.stoch_weight }
  bollinger := cfg.bollinger

/-- Embeds `series.iloc[i]`: an absent index is an `IndexError`. -/
def getE (l : List ℚ) (i : ℕ) : Except Err ℚ :=
  match l.get? i with
  | some x => .ok x
  | none => .error .indexError

/-- The arithmetic of one iteration of the signal loop
(`market_analysis.py:312-362`) after all series/dict reads have succeeded:
given the oversold/overbought values, the MACD `threshold_std`, the three
weights, the configured minimum confidence `mc`, the std `σ` of the trailing
MACD-difference history, the indicator values `r`, `m`, `msig`, `k` at bar
`i`, the bar's volume `v` and the trailing 20-bar mean volume `vmean`.
Returns the pair (composite signal, confidence); `none` components are
non-finite numpy floats (`nan` propagation). -/
def barCore (osd obt ts sosd sobt w1 w2 w3 mc σ r m msig k v vmean : ℚ) :
    Option ℚ × Option ℚ :=
  -- rsi_signal / rsi_strength (lines 319-320)
  let rsiSig := rsiDirSignal osd obt r
  let rsiStrength := |(r - 50) / 50|
  -- macd_threshold / macd_diff / macd signal and strength (lines 327-331)
  let macdThreshold := ts * σ
  let macdDiff := m - msig
  let macdSig := macdDirSignal macdThreshold macdDiff
  let macdStrength := npDiv |macdDiff| σ
  -- stoch_signal / stoch_strength (lines 340-341)
  let stochSig := stochDirSignal sosd sobt k
  let stochStrength := min (|k - 50| / 50) 1
  -- weighted composite (lines 344-354)
  let weighted := macdStrength.map (fun ms =>
    rsiSig * rsiStrength * w1 + macdSig * ms * w2 + stochSig * stochStrength * w3)
  let total := w1 + w2 + w3
  let composite := weighted.bind (fun ws => npDiv ws total)
  -- confidence (lines 356-362)
  let volumeScale := npDiv v vmean
  let confScale := volumeScale.map (fun x => 1 + (1/5) * x)
  let inner := composite.map (fun c => min (max |c| mc) 1)
  let confidence := match confScale, inner with
    | some x, some y => some (x * y)
    | _, _ => none
  (composite, confidence)

/-- One iteration of the signal loop (`market_analysis.py:311-362`): the
series and dict reads in source order (the RSI and Stochastic history slices
of lines 314 and 335 are computed by the source but never read afterwards;
being pure they are omitted), then `barCore`.  Reading the `oversold` /
`overbought` keys is a `KeyError` when the effective configuration does not
contain them (the base configuration does not). -/
def computeBar (cfg : BaseConfig) (mc : ℚ) (stdf : List ℚ → ℚ) (t : TechInd)
    (vols : List ℚ) (i : ℕ) : Except Err (Option ℚ × Option ℚ) :=
  match getE t.rsi i with
  | .error e => .error e
  | .ok r =>
    match cfg.rsi.oversold with
    | none => .error (.keyError "oversold")
    | some osd =>
      match cfg.rsi.overbought with
      | none => .error (.keyError "overbought")
      | some obt =>
        match getE t.macd i with
        | .error e => .error e
        | .ok m =>
          match getE t.macd_signal i with
          | .error e => .error e
          | .ok msig =>
            match getE t.stoch_k i with
            | .error e => .error e
            | .ok k =>
              match cfg.stochastic.oversold with
              | none => .error (.keyError "oversold")
              | some sosd =>
                match cfg.stochastic.overbought with
                | none => .error (.keyError "overbought")
                | some sobt =>
                  match getE vols i with
                  | .error e => .error e
                  | .ok v =>
                    .ok (barCore osd obt cfg.macd.threshold_std sosd sobt
                      cfg.rsi.weight cfg.macd.weight cfg.stochastic.weight mc
                      (stdf (macdHist t i)) r m msig k v
                      (listMean (listSlice vols (i - 20) i)))

/-- The dict returned by `generate_trading_signals`
(`market_analysis.py:364-369`). -/
structure SignalOutput where
  composite_signal : List (Option ℚ)
  confidence : List (Option ℚ)
  state_characteristics : Option (List (ℕ × StateChars))
  current_state : Option ℕ
deriving DecidableEq, Repr

/-- Embeds `MarketAnalyzer.generate_trading_signals` (`market_analysis.py:272-369`).
Control flow: auto-compute indicators when the indicator dict is empty
(line 280), auto-identify states when no current state is set (line 283,
default `n_states=3`), fetch the state-adjusted configuration (line 286,
with its shallow-copy sharing), apply the `thresholds` override if provided
(lines 289-301, which also writes through to the stored configuration), then
run the per-bar loop from the fixed `historical_window = 100`; indices below
100 keep the `np.zeros` initialisation. -/
def generate_trading_signals (pipeline : List Bar → List FeatureRow × List PcaPoint)
    (kmeans : ℕ → List PcaPoint → List ℕ) (calcInd : List Bar → TechInd)
    (stdf : List ℚ → ℚ) (a : Analyzer) (thresholds : Option Thresholds) :
    Except Err (Analyzer × SignalOutput) :=
  -- line 280: `if not self.technical_indicators: self.calculate_technical_indicators()`
  let step1 : Except Err Analyzer :=
    match a.technicalIndicators with
    | none => calculate_technical_indicators calcInd a
    | some _ => .ok a
  match step1 with
  | .error e => .error e
  | .ok a =>
    -- line 283: `if self.current_state is None: self.identify_market_states()`
    let step2 : Except Err Analyzer :=
      match a.currentState with
      | none => identify_market_states pipeline kmeans a 3
      | some _ => .ok a
    match step2 with
    | .error e => .error e
    | .ok a =>
      -- line 286
      let (a, config0) := get_state_adjusted_config a
      -- lines 289-301: the override writes into the inner dicts shared with
      -- the stored base configuration, and sets `min_signal_confidence`.
      let (a, config) :=
        match thresholds with
        | some th =>
          let cfg := applyThresholds config0 th
          ({ a with baseConfig := cfg, minSignalConfidence := th.min_confidence }, cfg)
        | none => (a, config0)
      -- line 304: `length = len(self.data)`
      match a.data with
      | none => .error .typeError
      | some d =>
        match a.technicalIndicators with
        | none => .error (.keyError "rsi")  -- `self.technical_indicators['rsi']` on an empty dict
        | some t =>
          let vols := d.map (fun b => b.volume)
          match (List.range d.length).mapM (fun i =>
            if i < 100 then .ok ((some 0 : Option ℚ), (some 0 : Option ℚ))
            else computeBar config a.minSignalConfidence stdf t vols i) with
          | .error e => .error e
          | .ok bars =>
            .ok (a, { composite_signal := bars.map (fun p => p.1)
                      confidence := bars.map (fun p => p.2)
                      state_characteristics := a.stateCharacteristics
                      current_state := a.currentState })

/-! ## Spec-side definitions

These two definitions follow the specification's words, not the source; they
exist to compare the source's RSI/Stochastic signal rule against the
history-percentile rule the specification describes (claim C3). -/

def insertSorted (x : ℚ) : List ℚ → List ℚ
  | [] => [x]
  | y :: ys => if x ≤ y then x :: y :: ys else y :: insertSorted x ys

def sortQ (l : List ℚ) : List ℚ := l.foldr insertSorted []

/-- Follows the spec's words (and numpy's default linear interpolation, as
used by the module's plotting code): the `p`-th percentile of a list. -/
def percentileSpec (l : List ℚ) (p : ℚ) : ℚ :=
  let s := sortQ l
  match s with
  | [] => 0
  | _ =>
    let n := s.length
    let h := p / 100 * ((n : ℚ) - 1)
    let k : ℤ := ⌊h⌋
    let lo := s.getD k.toNat 0
    let hi := s.getD (k.toNat + 1) lo
    lo + (h - (k : ℚ)) * (hi - lo)

/-- Follows the spec's words (§4.5): an RSI directional signal whose
oversold/overbought thresholds are percentiles of the trailing `H`-bar RSI
history, derived from the configured `threshold_percentile` the way the
module's own plotting code derives them. -/
def rsiDirSignalSpec (p : ℚ) (hist : List ℚ) (v : ℚ) : ℚ :=
  let osd := percentileSpec hist (100 - p)
  let obt := percentileSpec hist p
  if v < osd then 1 else if obt < v then -1 else 0

/-- The documented contract of `sklearn.cluster.KMeans.fit_predict` used by
the embedding: for at least one requested cluster it returns one label per
point, each in `[0, k)`. -/
def KMeansValid (kmeans : ℕ → List PcaPoint → List ℕ) : Prop :=
  ∀ k pts, 1 ≤ k →
    (kmeans k pts).length = pts.length ∧ ∀ l ∈ kmeans k pts, l < k

/-! ## Concrete instances used by counterexamples and witnesses -/

/-- All-zero state characteristics (every adjustment scale is then 1). -/
def zeroChars : StateChars := ⟨0, 0, 0, 0, 0, 0⟩

/-- Characteristics with volatility 1, trend strength 0, volume 1. -/
def chVol1 : StateChars := ⟨1, 0, 1, 0, 0, 0⟩

/-- A trivial feature pipeline: every bar maps to the zero feature row and
the origin. -/
def wPipeline : List Bar → List FeatureRow × List PcaPoint :=
  fun d => (d.map (fun _ => ⟨0, 0, 0, 0⟩), d.map (fun _ => ((0 : ℚ), (0 : ℚ))))

/-- A trivial clustering function: every point gets label 0. -/
def wKmeans : ℕ → List PcaPoint → List ℕ :=
  fun _ pts => pts.map (fun _ => 0)

/-- A trivial indicator oracle: RSI and %K constantly 50, MACD lines 0. -/
def wCalcInd : List Bar → TechInd :=
  fun d => { rsi := d.map (fun _ => 50), macd := d.map (fun _ => 0),
             macd_signal := d.map (fun _ => 0), stoch_k := d.map (fun _ => 50) }

/-- A constant std oracle; the concrete histories it is applied to in the
theorems below have sample variance 1, so the value 1 is the exact pandas
standard deviation there (checked by the accompanying `sampleVar` conjuncts). -/
def cStd : List ℚ → ℚ := fun _ => 1

/-- A thresholds override with the default API values and unit weights. -/
def cexThresholds : Thresholds :=
  { rsi_oversold := 30, rsi_overbought := 70, rsi_weight := 1,
    macd_threshold_std := 1, macd_weight := 1,
    stoch_oversold := 20, stoch_overbought := 80, stoch_weight := 1,
    min_confidence := 3/5 }

/-- The same override with every indicator weight set to 0. -/
def cexThresholdsZero : Thresholds :=
  { cexThresholds with rsi_weight := 0, macd_weight := 0, stoch_weight := 0 }

/-- A list of 101 identical bars with unit close and volume. -/
def cexBars : List Bar := List.replicate 101 ⟨1, 1⟩

/-- Indicator series over 101 bars: neutral RSI/%K; the MACD-minus-signal
trailing history at bar 100 is `10, 0, ..., 0` (sample variance exactly 1)
and the difference at bar 100 is 5, i.e. five standard deviations. -/
def cexTech : TechInd :=
  { rsi := List.replicate 101 50,
    macd := (10 : ℚ) :: (List.replicate 99 0 ++ [5]),
    macd_signal := List.replicate 101 0,
    stoch_k := List.replicate 101 50 }

/-- Volumes of the 101 concrete bars. -/
def cexVols : List ℚ := List.replicate 101 1

/-- An analyzer with loaded data, computed indicators and an identified
all-zero current state. -/
def cexAnalyzer1 : Analyzer :=
  { data := some cexBars, technicalIndicators := some cexTech,
    states := List.replicate 101 0, stateCharacteristics := some [(0, zeroChars)],
    currentState := some 0, currentCharacteristics := some zeroChars,
    baseConfig := baseConfig, minSignalConfidence := 3/5 }

/-- The ok-payload of a signal-generation run, if any. -/
def okOut : Except Err (Analyzer × SignalOutput) → Option SignalOutput
  | .ok p => some p.2
  | .error _ => none

/-- The (composite, confidence) slot of bar `i` of a run, with sentinel
defaults that differ from every reachable value. -/
def barAt (r : Except Err (Analyzer × SignalOutput)) (i : ℕ) :
    Option (Option ℚ × Option ℚ) :=
  (okOut r).map (fun o =>
    (o.composite_signal.getD i (some 999), o.confidence.getD i (some 999)))

/-- The end-to-end run behind the C1 counterexample. -/
def cexRun1 : Except Err (Analyzer × SignalOutput) :=
  generate_trading_signals wPipeline wKmeans wCalcInd cStd cexAnalyzer1
    (some cexThresholds)

/-- The same run with all indicator weights overridden to zero (C2). -/
def cexRun2 : Except Err (Analyzer × SignalOutput) :=
  generate_trading_signals wPipeline wKmeans wCalcInd cStd cexAnalyzer1
    (some cexThresholdsZero)

/-- Indicator series for the C3 counterexample: the trailing RSI history is
constantly 80 while the RSI value at bar 100 is 75; MACD as in `cexTech`
but with difference 0 at bar 100; %K neutral. -/
def cexT3 : TechInd :=
  { rsi := List.replicate 100 80 ++ [75],
    macd := (10 : ℚ) :: List.replicate 100 0,
    macd_signal := List.replicate 101 0,
    stoch_k := List.replicate 101 50 }

/-- The effective configuration after the default-valued override. -/
def cfgC3 : BaseConfig := applyThresholds baseConfig cexThresholds

/-- Technical indicators identical to `cexT3` at bar 100 (same RSI, %K and
MACD series values) but with a different trailing RSI history. -/
def cexT3' : TechInd := { cexT3 with rsi := List.replicate 100 33 ++ [75] }

/-- The analyzer state for the C4 mutation bug: a current state with
volatility-1 characteristics. -/
def cexA4 : Analyzer :=
  { data := some [], technicalIndicators := none, states := [],
    stateCharacteristics := some [(0, chVol1)], currentState := some 0,
    currentCharacteristics := some chVol1, baseConfig := baseConfig,
    minSignalConfidence := 3/5 }

/-- A fresh analyzer (no indicators, no state) over the 101 concrete bars,
as right after `fetch_data`. -/
def c10Analyzer : Analyzer :=
  { data := some cexBars, technicalIndicators := none, states := [],
    stateCharacteristics := none, currentState := none,
    currentCharacteristics := none, baseConfig := baseConfig,
    minSignalConfidence := 3/5 }

/-- The C10 run: fresh analyzer, default `thresholds=None`. -/
def c10Run : Except Err (Analyzer × SignalOutput) :=
  generate_trading_signals wPipeline wKmeans wCalcInd cStd c10Analyzer none

/-! ## Helper lemmas -/

theorem abs_rsiDirSignal_le_one (a b v : ℚ) : |rsiDirSignal a b v| ≤ 1 := by
  unfold rsiDirSignal
  split <;> [skip; split] <;> norm_num

theorem abs_macdDirSignal_le_one (a b : ℚ) : |macdDirSignal a b| ≤ 1 := by
  unfold macdDirSignal
  split <;> [skip; split] <;> norm_num

theorem abs_stochDirSignal_le_one (a b v : ℚ) : |stochDirSignal a b v| ≤ 1 := by
  unfold stochDirSignal
  split <;> [skip; split] <;> norm_num

/-- A weighted term `signal × strength × weight` with `|signal| ≤ 1`,
`strength ∈ [0, 1]` and `weight ≥ 0` is absolutely bounded by the weight. -/
theorem term_abs_le (s st w : ℚ) (hs : |s| ≤ 1) (hst0 : 0 ≤ st) (hst1 : st ≤ 1)
    (hw : 0 ≤ w) : |s * st * w| ≤ w := by
  rw [abs_mul, abs_mul, abs_of_nonneg hst0, abs_of_nonneg hw]
  nlinarith [abs_nonneg s, mul_nonneg hst0 hw,
    mul_nonneg (mul_nonneg (sub_nonneg.mpr hs) hst0) hw,
    mul_nonneg (sub_nonneg.mpr hst1) hw]

/-- Fully-finite evaluation of the per-bar arithmetic: with a nonzero std,
nonzero total weight and nonzero trailing mean volume, `barCore` returns the
weighted composite and the volume-scaled clamped confidence. -/
theorem barCore_eval {osd obt ts sosd sobt w1 w2 w3 mc σ r m msig k v vmean : ℚ}
    (hσ : σ ≠ 0) (hW : w1 + w2 + w3 ≠ 0) (hvm : vmean ≠ 0) :
    barCore osd obt ts sosd sobt w1 w2 w3 mc σ r m msig k v vmean =
      (some ((rsiDirSignal osd obt r * |(r - 50) / 50| * w1 +
              macdDirSignal (ts * σ) (m - msig) * (|m - msig| / σ) * w2 +
              stochDirSignal sosd sobt k * min (|k - 50| / 50) 1 * w3) /
             (w1 + w2 + w3)),
       some ((1 + (1/5) * (v / vmean)) *
             min (max |(rsiDirSignal osd obt r * |(r - 50) / 50| * w1 +
                        macdDirSignal (ts * σ) (m - msig) * (|m - msig| / σ) * w2 +
                        stochDirSignal sosd sobt k * min (|k - 50| / 50) 1 * w3) /
                       (w1 + w2 + w3)| mc) 1)) := by
  unfold barCore
  simp only [npDiv, if_neg hσ, if_neg hW, if_neg hvm, Option.map_some',
    Option.some_bind]

/-- Reduction of `computeBar` to `barCore` once every series and dict read
succeeds. -/
theorem computeBar_eq_barCore {cfg : BaseConfig} {mc : ℚ} {stdf : List ℚ → ℚ}
    {t : TechInd} {vols : List ℚ} {i : ℕ} {osd obt sosd sobt r m msig k v : ℚ}
    (hr : t.rsi.get? i = some r) (ho1 : cfg.rsi.oversold = some osd)
    (ho2 : cfg.rsi.overbought = some obt) (hm : t.macd.get? i = some m)
    (hms : t.macd_signal.get? i = some msig) (hk : t.stoch_k.get? i = some k)
    (ho3 : cfg.stochastic.oversold = some sosd)
    (ho4 : cfg.stochastic.overbought = some sobt) (hv : vols.get? i = some v) :
    computeBar cfg mc stdf t vols i =
      .ok (barCore osd obt cfg.macd.threshold_std sosd sobt cfg.rsi.weight
        cfg.macd.weight cfg.stochastic.weight mc (stdf (macdHist t i)) r m msig
        k v (listMean (listSlice vols (i - 20) i))) := by
  unfold computeBar getE
  rw [hr, ho1, ho2, hm, hms, hk, ho3, ho4, hv]

/-! ## Claim theorems -/

/-- Claim C7 (confirmed): if no market state has been identified (the current
state is undefined), `get_state_adjusted_config` returns the base
configuration unmodified (and does not touch the analyzer). -/
theorem C7_unidentified_returns_base (a : Analyzer) (h : a.currentState = none) :
    get_state_adjusted_config a = (a, a.baseConfig) := by
  unfold get_state_adjusted_config
  rw [h]

/-- Witness for C7 at a concrete fresh analyzer. -/
theorem C7_unidentified_returns_base_witness :
    get_state_adjusted_config c10Analyzer = (c10Analyzer, c10Analyzer.baseConfig) :=
  C7_unidentified_returns_base c10Analyzer rfl

/-- Claim C8 (code bug): for current characteristics with volatility 1 (and
trend strength 0, so no other scale applies), the engine scales the RSI
threshold percentile by `1 + 0.5·v` (90 → 135), the RSI weight by `1/(1+v)`
(1 → 1/2) and the MACD threshold-std by `1 + v` (1 → 2), but leaves the
Stochastic threshold percentile at its base value 90 instead of scaling it to
135: the adjustment table spells the key `stoch_threshold_scale` while the
engine looks up `stochastic_threshold_scale`, so the documented widening is
never applied. -/
theorem C8_stoch_scale_never_applied :
    (adjustedConfig baseConfig chVol1).rsi.threshold_percentile = 135 ∧
    (adjustedConfig baseConfig chVol1).rsi.weight = 1/2 ∧
    (adjustedConfig baseConfig chVol1).macd.threshold_std = 2 ∧
    (adjustedConfig baseConfig chVol1).stochastic.threshold_percentile = 90 ∧
    baseConfig.stochastic.threshold_percentile *
      (1 + (1/2) * chVol1.volatility) = 135 ∧
    (adjustedConfig baseConfig chVol1).stochastic.threshold_percentile ≠
      baseConfig.stochastic.threshold_percentile *
        (1 + (1/2) * chVol1.volatility) := by
  refine ⟨?_, ?_, ?_, ?_, ?_, ?_⟩
  · with_unfolding_all rfl
  · with_unfolding_all rfl
  · with_unfolding_all rfl
  · with_unfolding_all rfl
  · with_unfolding_all rfl
  · exact of_decide_eq_true (by with_unfolding_all rfl)

/-- Claim C4 (code bug): the first `get_state_adjusted_config` call on an
analyzer whose current state has volatility 1 returns an RSI threshold
percentile of 135 but also leaves 135 in the stored base configuration
(the shallow `dict.copy()` shares the nested indicator dicts that `*=`
mutates in place), so a second identical call compounds the scaling and
returns 202.5 instead of 135. -/
theorem C4_shallow_copy_compounds :
    cexA4.baseConfig.rsi.threshold_percentile = 90 ∧
    (get_state_adjusted_config cexA4).2.rsi.threshold_percentile = 135 ∧
    (get_state_adjusted_config cexA4).1.baseConfig.rsi.threshold_percentile = 135 ∧
    (get_state_adjusted_config
      (get_state_adjusted_config cexA4).1).2.rsi.threshold_percentile = 405/2 ∧
    ((405 : ℚ)/2 ≠ 135) := by
  refine ⟨?_, ?_, ?_, ?_, ?_⟩
  · with_unfolding_all rfl
  · with_unfolding_all rfl
  · with_unfolding_all rfl
  · with_unfolding_all rfl
  · exact of_decide_eq_true (by with_unfolding_all rfl)

/-- Counterexample to claim C1 as stated: an end-to-end
`generate_trading_signals` run (101 loaded bars, indicators computed, state
identified, the API's default threshold override with unit weights) on which
bar 100 has composite signal 5/3 ∉ [−1, 1] and confidence 6/5 ∉ [0, 1].
The MACD difference at bar 100 is five standard deviations of its trailing
history (whose sample variance is exactly 1, so the constant-1 std oracle is
exact), making the uncapped MACD strength 5. -/
theorem C1_counterexample :
    sampleVar (macdHist cexTech 100) = 1 ∧
    barAt cexRun1 100 = some (some (5/3), some (6/5)) ∧
    ¬ ((5/3 : ℚ) ≤ 1) ∧ ¬ ((6/5 : ℚ) ≤ 1) := by
  refine ⟨?_, ?_, ?_, ?_⟩
  · with_unfolding_all rfl
  · with_unfolding_all rfl
  · exact of_decide_eq_true (by with_unfolding_all rfl)
  · exact of_decide_eq_true (by with_unfolding_all rfl)

/-- Claim C1 as amended: at any bar whose reads succeed, if the RSI value is
in [0, 100], the weights are nonnegative with positive total, the trailing
MACD-history std is positive and the MACD deviation is at most one such std
(i.e. the MACD strength is ≤ 1), then the composite signal lies in [−1, 1];
the confidence is nonnegative and bounded by the volume scale
`1 + 0.2 × volume_ratio` (not by 1). -/
theorem C1_amended (cfg : BaseConfig) (mc : ℚ) (stdf : List ℚ → ℚ)
    (t : TechInd) (vols : List ℚ) (i : ℕ) (osd obt sosd sobt r m msig k v : ℚ)
    (hr : t.rsi.get? i = some r) (ho1 : cfg.rsi.oversold = some osd)
    (ho2 : cfg.rsi.overbought = some obt) (hm : t.macd.get? i = some m)
    (hms : t.macd_signal.get? i = some msig) (hk : t.stoch_k.get? i = some k)
    (ho3 : cfg.stochastic.oversold = some sosd)
    (ho4 : cfg.stochastic.overbought = some sobt) (hv : vols.get? i = some v)
    (hr0 : 0 ≤ r) (hr100 : r ≤ 100)
    (hσ : 0 < stdf (macdHist t i)) (hstr : |m - msig| ≤ stdf (macdHist t i))
    (hw1 : 0 ≤ cfg.rsi.weight) (hw2 : 0 ≤ cfg.macd.weight)
    (hw3 : 0 ≤ cfg.stochastic.weight)
    (hW : 0 < cfg.rsi.weight + cfg.macd.weight + cfg.stochastic.weight)
    (hvm : listMean (listSlice vols (i - 20) i) ≠ 0)
    (hvr : 0 ≤ v / listMean (listSlice vols (i - 20) i)) :
    ∃ c conf, computeBar cfg mc stdf t vols i = .ok (some c, some conf) ∧
      -1 ≤ c ∧ c ≤ 1 ∧ 0 ≤ conf ∧
      conf ≤ 1 + (1/5) * (v / listMean (listSlice vols (i - 20) i)) := by
  rw [computeBar_eq_barCore hr ho1 ho2 hm hms hk ho3 ho4 hv,
    barCore_eval (ne_of_gt hσ) (ne_of_gt hW) hvm]
  set σ := stdf (macdHist t i) with hσdef
  set w1 := cfg.rsi.weight
  set w2 := cfg.macd.weight
  set w3 := cfg.stochastic.weight
  set vm := listMean (listSlice vols (i - 20) i)
  set N := rsiDirSignal osd obt r * |(r - 50) / 50| * w1 +
    macdDirSignal (cfg.macd.threshold_std * σ) (m - msig) * (|m - msig| / σ) * w2 +
    stochDirSignal sosd sobt k * min (|k - 50| / 50) 1 * w3 with hN
  refine ⟨_, _, rfl, ?_, ?_, ?_, ?_⟩
  case _ =>
    -- the three strengths are in [0, 1]
    have hst1a : (0 : ℚ) ≤ |(r - 50) / 50| := abs_nonneg _
    have hst1b : |(r - 50) / 50| ≤ 1 := by
      rw [abs_div, abs_of_pos (by norm_num : (0:ℚ) < 50), div_le_one (by norm_num)]
      rw [abs_le]
      constructor <;> linarith
    have hst2a : (0 : ℚ) ≤ |m - msig| / σ := div_nonneg (abs_nonneg _) hσ.le
    have hst2b : |m - msig| / σ ≤ 1 := (div_le_one hσ).mpr hstr
    have hst3a : (0 : ℚ) ≤ min (|k - 50| / 50) 1 :=
      le_min (div_nonneg (abs_nonneg _) (by norm_num)) (by norm_num)
    have hst3b : min (|k - 50| / 50) 1 ≤ 1 := min_le_right _ _
    have hb1 := term_abs_le _ _ _ (abs_rsiDirSignal_le_one osd obt r) hst1a hst1b hw1
    have hb2 := term_abs_le _ _ _
      (abs_macdDirSignal_le_one (cfg.macd.threshold_std * σ) (m - msig)) hst2a hst2b hw2
    have hb3 := term_abs_le _ _ _ (abs_stochDirSignal_le_one sosd sobt k) hst3a hst3b hw3
    have hNbound : |N| ≤ w1 + w2 + w3 := by
      rw [hN]
      calc |rsiDirSignal osd obt r * |(r - 50) / 50| * w1 +
            macdDirSignal (cfg.macd.threshold_std * σ) (m - msig) *
              (|m - msig| / σ) * w2 +
            stochDirSignal sosd sobt k * min (|k - 50| / 50) 1 * w3| ≤
          |rsiDirSignal osd obt r * |(r - 50) / 50| * w1 +
            macdDirSignal (cfg.macd.threshold_std * σ) (m - msig) *
              (|m - msig| / σ) * w2| +
          |stochDirSignal sosd sobt k * min (|k - 50| / 50) 1 * w3| := abs_add _ _
        _ ≤ |rsiDirSignal osd obt r * |(r - 50) / 50| * w1| +
            |macdDirSignal (cfg.macd.threshold_std * σ) (m - msig) *
              (|m - msig| / σ) * w2| +
            |stochDirSignal sosd sobt k * min (|k - 50| / 50) 1 * w3| := by
              have := abs_add (rsiDirSignal osd obt r * |(r - 50) / 50| * w1)
                (macdDirSignal (cfg.macd.threshold_std * σ) (m - msig) *
                  (|m - msig| / σ) * w2)
              linarith
        _ ≤ w1 + w2 + w3 := by linarith
    have habs : |N / (w1 + w2 + w3)| ≤ 1 := by
      rw [abs_div, abs_of_pos hW]
      exact (div_le_one hW).mpr hNbound
    exact (abs_le.mp habs).1
  case _ =>
    -- upper bound: same |·| ≤ 1 computation
    have hst1a : (0 : ℚ) ≤ |(r - 50) / 50| := abs_nonneg _
    have hst1b : |(r - 50) / 50| ≤ 1 := by
      rw [abs_div, abs_of_pos (by norm_num : (0:ℚ) < 50), div_le_one (by norm_num)]
      rw [abs_le]
      constructor <;> linarith
    have hst2a : (0 : ℚ) ≤ |m - msig| / σ := div_nonneg (abs_nonneg _) hσ.le
    have hst2b : |m - msig| / σ ≤ 1 := (div_le_one hσ).mpr hstr
    have hst3a : (0 : ℚ) ≤ min (|k - 50| / 50) 1 :=
      le_min (div_nonneg (abs_nonneg _) (by norm_num)) (by norm_num)
    have hst3b : min (|k - 50| / 50) 1 ≤ 1 := min_le_right _ _
    have hb1 := term_abs_le _ _ _ (abs_rsiDirSignal_le_one osd obt r) hst1a hst1b hw1
    have hb2 := term_abs_le _ _ _
      (abs_macdDirSignal_le_one (cfg.macd.threshold_std * σ) (m - msig)) hst2a hst2b hw2
    have hb3 := term_abs_le _ _ _ (abs_stochDirSignal_le_one sosd sobt k) hst3a hst3b hw3
    have hNbound : |N| ≤ w1 + w2 + w3 := by
      rw [hN]
      calc |rsiDirSignal osd obt r * |(r - 50) / 50| * w1 +
            macdDirSignal (cfg.macd.threshold_std * σ) (m - msig) *
              (|m - msig| / σ) * w2 +
            stochDirSignal sosd sobt k * min (|k - 50| / 50) 1 * w3| ≤
          |rsiDirSignal osd obt r * |(r - 50) / 50| * w1 +
            macdDirSignal (cfg.macd.threshold_std * σ) (m - msig) *
              (|m - msig| / σ) * w2| +
          |stochDirSignal sosd sobt k * min (|k - 50| / 50) 1 * w3| := abs_add _ _
        _ ≤ |rsiDirSignal osd obt r * |(r - 50) / 50| * w1| +
            |macdDirSignal (cfg.macd.threshold_std * σ) (m - msig) *
              (|m - msig| / σ) * w2| +
            |stochDirSignal sosd sobt k * min (|k - 50| / 50) 1 * w3| := by
              have := abs_add (rsiDirSignal osd obt r * |(r - 50) / 50| * w1)
                (macdDirSignal (cfg.macd.threshold_std * σ) (m - msig) *
                  (|m - msig| / σ) * w2)
              linarith
        _ ≤ w1 + w2 + w3 := by linarith
    have habs : |N / (w1 + w2 + w3)| ≤ 1 := by
      rw [abs_div, abs_of_pos hW]
      exact (div_le_one hW).mpr hNbound
    exact (abs_le.mp habs).2
  case _ =>
    have hcs : (0 : ℚ) ≤ 1 + (1/5) * (v / vm) := by linarith
    have hinner : (0 : ℚ) ≤ min (max |N / (w1 + w2 + w3)| mc) 1 :=
      le_min (le_trans (abs_nonneg _) (le_max_left _ _)) (by norm_num)
    exact mul_nonneg hcs hinner
  case _ =>
    have hcs : (0 : ℚ) ≤ 1 + (1/5) * (v / vm) := by linarith
    have hinner : min (max |N / (w1 + w2 + w3)| mc) 1 ≤ 1 := min_le_right _ _
    calc (1 + (1/5) * (v / vm)) * min (max |N / (w1 + w2 + w3)| mc) 1 ≤
        (1 + (1/5) * (v / vm)) * 1 := mul_le_mul_of_nonneg_left hinner hcs
      _ = 1 + (1/5) * (v / vm) := mul_one _

/-- Witness for the amended C1 at a concrete neutral bar. -/
theorem C1_amended_witness :
    ∃ c conf, computeBar cfgC3 (3/5) cStd (wCalcInd cexBars) cexVols 100 =
      .ok (some c, some conf) ∧ -1 ≤ c ∧ c ≤ 1 ∧ 0 ≤ conf ∧
      conf ≤ 1 + (1/5) *
        ((1 : ℚ) / listMean (listSlice cexVols (100 - 20) 100)) :=
  C1_amended cfgC3 (3/5) cStd (wCalcInd cexBars) cexVols 100 30 70 20 80 50 0 0 50 1
    (by with_unfolding_all rfl) (by with_unfolding_all rfl)
    (by with_unfolding_all rfl) (by with_unfolding_all rfl)
    (by with_unfolding_all rfl) (by with_unfolding_all rfl)
    (by with_unfolding_all rfl) (by with_unfolding_all rfl)
    (by with_unfolding_all rfl)
    (of_decide_eq_true (by with_unfolding_all rfl))
    (of_decide_eq_true (by with_unfolding_all rfl))
    (of_decide_eq_true (by with_unfolding_all rfl))
    (of_decide_eq_true (by with_unfolding_all rfl))
    (of_decide_eq_true (by with_unfolding_all rfl))
    (of_decide_eq_true (by with_unfolding_all rfl))
    (of_decide_eq_true (by with_unfolding_all rfl))
    (of_decide_eq_true (by with_unfolding_all rfl))
    (of_decide_eq_true (by with_unfolding_all rfl))
    (of_decide_eq_true (by with_unfolding_all rfl))

/-- Counterexample to claim C2 as stated: the same end-to-end run with every
indicator weight overridden to 0 completes without an exception, but bar 100
carries a non-finite (NaN) composite signal and confidence — not the claimed
composite 0.  (numpy float division `0.0 / 0.0` warns and yields NaN rather
than raising.) -/
theorem C2_counterexample :
    barAt cexRun2 100 = some (none, none) ∧
    (none : Option ℚ) ≠ some 0 := by
  refine ⟨?_, ?_⟩
  · with_unfolding_all rfl
  · exact of_decide_eq_true (by with_unfolding_all rfl)

/-- Claim C2 as amended: with every indicator weight 0 (and all reads
succeeding), the per-bar computation does not raise — the division by the
zero total weight is numpy float division — but produces NaN (modelled
`none`) for both the composite signal and the confidence, not 0. -/
theorem C2_amended (cfg : BaseConfig) (mc : ℚ) (stdf : List ℚ → ℚ)
    (t : TechInd) (vols : List ℚ) (i : ℕ) (osd obt sosd sobt r m msig k v : ℚ)
    (hr : t.rsi.get? i = some r) (ho1 : cfg.rsi.oversold = some osd)
    (ho2 : cfg.rsi.overbought = some obt) (hm : t.macd.get? i = some m)
    (hms : t.macd_signal.get? i = some msig) (hk : t.stoch_k.get? i = some k)
    (ho3 : cfg.stochastic.oversold = some sosd)
    (ho4 : cfg.stochastic.overbought = some sobt) (hv : vols.get? i = some v)
    (hz1 : cfg.rsi.weight = 0) (hz2 : cfg.macd.weight = 0)
    (hz3 : cfg.stochastic.weight = 0) :
    computeBar cfg mc stdf t vols i = .ok (none, none) := by
  rw [computeBar_eq_barCore hr ho1 ho2 hm hms hk ho3 ho4 hv, hz1, hz2, hz3]
  unfold barCore
  cases h1 : npDiv |m - msig| (stdf (macdHist t i)) <;>
    cases h2 : npDiv v (listMean (listSlice vols (i - 20) i)) <;>
      simp [npDiv]

/-- Witness for the amended C2 at a concrete bar with zero weights. -/
theorem C2_amended_witness :
    computeBar (applyThresholds baseConfig cexThresholdsZero) (3/5) cStd cexTech
      cexVols 100 = .ok (none, none) :=
  C2_amended (applyThresholds baseConfig cexThresholdsZero) (3/5) cStd cexTech
    cexVols 100 30 70 20 80 50 5 0 50 1
    (by with_unfolding_all rfl) (by with_unfolding_all rfl)
    (by with_unfolding_all rfl) (by with_unfolding_all rfl)
    (by with_unfolding_all rfl) (by with_unfolding_all rfl)
    (by with_unfolding_all rfl) (by with_unfolding_all rfl)
    (by with_unfolding_all rfl) (by with_unfolding_all rfl)
    (by with_unfolding_all rfl) (by with_unfolding_all rfl)

/-- Counterexample to claim C3 as stated: at bar 100 the trailing RSI history
is constantly 80, so any history-percentile threshold pair is (80, 80) and
the spec's rule emits +1 for the RSI value 75; the code instead compares 75
against the fixed configured oversold/overbought values (30, 70) — reading
exactly those keys of the effective configuration — and emits −1, which the
full per-bar computation turns into the negative composite −1/6.  (The MACD
history sample variance is 1, so the constant-1 std oracle is exact.) -/
theorem C3_counterexample :
    cfgC3.rsi.oversold = some 30 ∧ cfgC3.rsi.overbought = some 70 ∧
    listSlice cexT3.rsi 0 100 = List.replicate 100 80 ∧
    cexT3.rsi.getD 100 0 = 75 ∧
    rsiDirSignal 30 70 75 = -1 ∧
    rsiDirSignalSpec 90 (List.replicate 100 80) 75 = 1 ∧
    rsiDirSignal 30 70 75 ≠ rsiDirSignalSpec 90 (List.replicate 100 80) 75 ∧
    sampleVar (macdHist cexT3 100) = 1 ∧
    computeBar cfgC3 (3/5) cStd cexT3 cexVols 100 =
      .ok (some (-(1/6)), some (18/25)) := by
  refine ⟨?_, ?_, ?_, ?_, ?_, ?_, ?_, ?_, ?_⟩
  · with_unfolding_all rfl
  · with_unfolding_all rfl
  · with_unfolding_all rfl
  · with_unfolding_all rfl
  · with_unfolding_all rfl
  · with_unfolding_all rfl
  · exact of_decide_eq_true (by with_unfolding_all rfl)
  · with_unfolding_all rfl
  · with_unfolding_all rfl

/-- Claim C3 as amended: only the MACD directional signal uses a threshold
derived from its trailing `H`-bar history (through the std of the
MACD-minus-signal slice); the RSI and Stochastic directional signals compare
the current value against the fixed configured oversold/overbought values,
so the per-bar result is invariant under arbitrary changes of the RSI and
Stochastic trailing histories (first conjunct), while the MACD history
enters only through the std oracle applied to the trailing slice (second
conjunct). -/
theorem C3_amended :
    (∀ (cfg : BaseConfig) (mc : ℚ) (stdf : List ℚ → ℚ) (t t' : TechInd)
        (vols : List ℚ) (i : ℕ),
        t.rsi.get? i = t'.rsi.get? i → t.stoch_k.get? i = t'.stoch_k.get? i →
        t.macd = t'.macd → t.macd_signal = t'.macd_signal →
        computeBar cfg mc stdf t vols i = computeBar cfg mc stdf t' vols i) ∧
    (∀ (cfg : BaseConfig) (mc : ℚ) (stdf stdg : List ℚ → ℚ) (t : TechInd)
        (vols : List ℚ) (i : ℕ),
        stdf (macdHist t i) = stdg (macdHist t i) →
        computeBar cfg mc stdf t vols i = computeBar cfg mc stdg t vols i) := by
  constructor
  · intro cfg mc stdf t t' vols i h1 h2 h3 h4
    unfold computeBar getE macdHist
    rw [h1, h2, h3, h4]
  · intro cfg mc stdf stdg t vols i h
    unfold computeBar getE
    rw [h]

/-- Witness for the amended C3: changing the RSI history (80s to 33s) with
the same bar-100 values leaves the result unchanged, as does swapping the
std oracle for one that agrees on the trailing MACD slice. -/
theorem C3_amended_witness :
    computeBar cfgC3 (3/5) cStd cexT3 cexVols 100 =
      computeBar cfgC3 (3/5) cStd cexT3' cexVols 100 ∧
    computeBar cfgC3 (3/5) cStd cexT3 cexVols 100 =
      computeBar cfgC3 (3/5) (fun l => if l.length = 100 then 1 else 7) cexT3
        cexVols 100 :=
  ⟨C3_amended.1 cfgC3 (3/5) cStd cexT3 cexT3' cexVols 100
      (by with_unfolding_all rfl) (by with_unfolding_all rfl) rfl rfl,
   C3_amended.2 cfgC3 (3/5) cStd (fun l => if l.length = 100 then 1 else 7)
      cexT3 cexVols 100 (by with_unfolding_all rfl)⟩

/-! ## Lemmas about the characteristics mapping -/

/-- In the keyed list built by skipping empty states, a state that occurs in
the assignment and is one of the iterated keys is looked up to its
characteristics record. -/
theorem lookup_filterMap_of_mem {β : Type} (states : List ℕ) (g : ℕ → β) :
    ∀ (l : List ℕ) (s : ℕ), s ∈ l → states.count s ≠ 0 →
      (l.filterMap (fun x => if states.count x = 0 then none
        else some (x, g x))).lookup s = some (g s) := by
  intro l
  induction l with
  | nil => intro s hs; exact absurd hs (List.not_mem_nil s)
  | cons a tl ih =>
    intro s hs hc
    by_cases has : s = a
    · subst has
      simp only [List.filterMap_cons, if_neg hc, List.lookup_cons, beq_self_eq_true]
    · have hmem : s ∈ tl := by
        rcases List.mem_cons.mp hs with h | h
        · exact absurd h has
        · exact h
      by_cases hca : states.count a = 0
      · simp only [List.filterMap_cons, if_pos hca]
        exact ih s hmem hc
      · simp only [List.filterMap_cons, if_neg hca, List.lookup_cons,
          beq_eq_false_iff_ne.mpr has]
        exact ih s hmem hc

/-- Conversely, a successful lookup means the state was iterated and has a
nonzero assignment count. -/
theorem mem_of_lookup_filterMap {β : Type} (states : List ℕ) (g : ℕ → β) :
    ∀ (l : List ℕ) (s : ℕ),
      ((l.filterMap (fun x => if states.count x = 0 then none
        else some (x, g x))).lookup s).isSome → s ∈ l ∧ states.count s ≠ 0 := by
  intro l
  induction l with
  | nil => intro s hs; simp [List.lookup] at hs
  | cons a tl ih =>
    intro s hs
    by_cases hca : states.count a = 0
    · rw [List.filterMap_cons, if_pos hca] at hs
      obtain ⟨h1, h2⟩ := ih s hs
      exact ⟨List.mem_cons_of_mem a h1, h2⟩
    · rw [List.filterMap_cons, if_neg hca] at hs
      by_cases has : s = a
      · subst has
        exact ⟨List.mem_cons_self s tl, hca⟩
      · rw [List.lookup_cons, beq_eq_false_iff_ne.mpr has] at hs
        obtain ⟨h1, h2⟩ := ih s hs
        exact ⟨List.mem_cons_of_mem a h1, h2⟩

/-- Core success lemma for `identifyCore`: for a non-empty projection and a
valid clustering function, the computation succeeds; the assignment comes
from clustering with `min n_states (number of distinct points)` clusters;
the last bar's state is assigned; the characteristics mapping is exactly the
skip-empty-states table, the current state's lookup succeeds, and a state
has an entry iff some bar is assigned to it. -/
theorem identifyCore_ok (pca : List PcaPoint)
    (kmeans : ℕ → List PcaPoint → List ℕ) (features : List FeatureRow)
    (nStates : ℕ) (hk : KMeansValid kmeans) (hne : pca ≠ [])
    (hn : 1 ≤ min nStates pca.dedup.length) :
    ∃ out, identifyCore kmeans pca features nStates = .ok out ∧
      out.states = kmeans (min nStates pca.dedup.length) pca ∧
      out.currentState ∈ out.states ∧
      out.characteristics = (List.range (min nStates pca.dedup.length)).filterMap
        (fun s => if out.states.count s = 0 then none
          else some (s, charsOf features pca out.states s)) ∧
      out.characteristics.lookup out.currentState =
        some out.currentCharacteristics ∧
      (∀ s, (out.characteristics.lookup s).isSome ↔ s ∈ out.states) := by
  obtain ⟨hlen, hrange⟩ := hk (min nStates pca.dedup.length) pca hn
  have hstne : kmeans (min nStates pca.dedup.length) pca ≠ [] := by
    intro h
    rw [h] at hlen
    exact hne (List.length_eq_zero.mp hlen.symm)
  obtain ⟨cur, hcur⟩ : ∃ cur,
      (kmeans (min nStates pca.dedup.length) pca).getLast? = some cur := by
    cases h : (kmeans (min nStates pca.dedup.length) pca).getLast? with
    | none => exact absurd (List.getLast?_eq_none_iff.mp h) hstne
    | some c => exact ⟨c, rfl⟩
  have hmem : cur ∈ kmeans (min nStates pca.dedup.length) pca :=
    List.mem_of_getLast?_eq_some hcur
  have hcount : (kmeans (min nStates pca.dedup.length) pca).count cur ≠ 0 :=
    fun h => (List.count_eq_zero.mp h) hmem
  have hcurlt : cur < min nStates pca.dedup.length := hrange cur hmem
  have hlook := lookup_filterMap_of_mem
    (kmeans (min nStates pca.dedup.length) pca)
    (charsOf features pca (kmeans (min nStates pca.dedup.length) pca))
    (List.range (min nStates pca.dedup.length)) cur
    (List.mem_range.mpr hcurlt) hcount
  have hcore : identifyCore kmeans pca features nStates = .ok
      { states := kmeans (min nStates pca.dedup.length) pca,
        characteristics := (List.range (min nStates pca.dedup.length)).filterMap
          (fun s => if (kmeans (min nStates pca.dedup.length) pca).count s = 0
            then none
            else some (s, charsOf features pca
              (kmeans (min nStates pca.dedup.length) pca) s)),
        currentState := cur,
        currentCharacteristics := charsOf features pca
          (kmeans (min nStates pca.dedup.length) pca) cur } := by
    unfold identifyCore
    simp only [hcur, hlook]
  refine ⟨_, hcore, rfl, hmem, rfl, hlook, ?_⟩
  intro s
  constructor
  · intro hs
    obtain ⟨_, h2⟩ := mem_of_lookup_filterMap _ _ _ s hs
    exact List.count_pos_iff.mp (Nat.pos_of_ne_zero h2)
  · intro hs
    have hc : (kmeans (min nStates pca.dedup.length) pca).count s ≠ 0 :=
      fun h => (List.count_eq_zero.mp h) hs
    rw [lookup_filterMap_of_mem _ _ _ s (List.mem_range.mpr (hrange s hs)) hc]
    exact rfl

/-- The trivial clustering function satisfies the `KMeans` contract. -/
theorem wKmeans_valid : KMeansValid wKmeans := by
  intro k pts hk1
  constructor
  · simp [wKmeans]
  · intro l hl
    simp only [wKmeans, List.mem_map] at hl
    obtain ⟨_, _, rfl⟩ := hl
    exact hk1

/-- Claim C5 (confirmed): on a loaded series whose projected points have
fewer distinct values than the requested `n_states`, `identify_market_states`
does not raise; the assignment comes from clustering with exactly the number
of distinct projected points as the effective cluster count, and the
state-characteristics mapping has an entry exactly for the states with at
least one assigned bar (none for empty states). -/
theorem C5_degenerate_clustering
    (pipeline : List Bar → List FeatureRow × List PcaPoint)
    (kmeans : ℕ → List PcaPoint → List ℕ) (a : Analyzer) (d : List Bar)
    (nStates : ℕ) (hk : KMeansValid kmeans) (hdata : a.data = some d)
    (hne : (pipeline d).2 ≠ [])
    (hdist : ((pipeline d).2).dedup.length < nStates) :
    ∃ a' chars, identify_market_states pipeline kmeans a nStates = .ok a' ∧
      a'.states = kmeans ((pipeline d).2).dedup.length (pipeline d).2 ∧
      a'.stateCharacteristics = some chars ∧
      (∀ s, (chars.lookup s).isSome ↔ s ∈ a'.states) := by
  have h1 : 1 ≤ ((pipeline d).2).dedup.length :=
    List.length_pos.mpr (fun h => hne (List.dedup_eq_nil _ |>.mp h))
  have hmin : min nStates ((pipeline d).2).dedup.length =
      ((pipeline d).2).dedup.length := min_eq_right hdist.le
  obtain ⟨out, hcore, hstates, _, _, _, hiff⟩ :=
    identifyCore_ok (pipeline d).2 kmeans (pipeline d).1 nStates hk hne
      (by rw [hmin]; exact h1)
  apply Exists.intro ({ a with states := out.states, stateCharacteristics := some out.characteristics, currentState := some out.currentState, currentCharacteristics := some out.currentCharacteristics })
  refine ⟨out.characteristics, ?_, ?_, rfl, ?_⟩
  · unfold identify_market_states
    simp only [hdata, hcore]
  · show out.states = _
    rw [hstates, hmin]
  · exact hiff

/-- Witness for C5: two identical bars, one distinct projected point,
requested `n_states = 3`. -/
theorem C5_degenerate_clustering_witness :
    ∃ a' chars, identify_market_states wPipeline wKmeans
        { data := some [⟨1, 1⟩, ⟨1, 1⟩], technicalIndicators := none,
          states := [], stateCharacteristics := none, currentState := none,
          currentCharacteristics := none, baseConfig := baseConfig,
          minSignalConfidence := 3/5 } 3 = .ok a' ∧
      a'.states = wKmeans ((wPipeline [⟨1, 1⟩, ⟨1, 1⟩]).2).dedup.length
        (wPipeline [⟨1, 1⟩, ⟨1, 1⟩]).2 ∧
      a'.stateCharacteristics = some chars ∧
      (∀ s, (chars.lookup s).isSome ↔ s ∈ a'.states) :=
  C5_degenerate_clustering wPipeline wKmeans _ [⟨1, 1⟩, ⟨1, 1⟩] 3
    wKmeans_valid rfl (of_decide_eq_true (by with_unfolding_all rfl))
    (of_decide_eq_true (by with_unfolding_all rfl))

/-- Claim C9 (confirmed): after a successful state identification on a
non-empty loaded series, the current state (the last bar's cluster) is
always a key of the state-characteristics mapping and the stored current
characteristics equal that key's entry — the lookup cannot fail, because the
last bar's own cluster has at least one assigned point. -/
theorem C9_current_state_always_keyed
    (pipeline : List Bar → List FeatureRow × List PcaPoint)
    (kmeans : ℕ → List PcaPoint → List ℕ) (a : Analyzer) (d : List Bar)
    (nStates : ℕ) (hk : KMeansValid kmeans) (hdata : a.data = some d)
    (hne : (pipeline d).2 ≠ []) (hn : 1 ≤ nStates) :
    ∃ a' s chars cc, identify_market_states pipeline kmeans a nStates = .ok a' ∧
      a'.currentState = some s ∧ a'.stateCharacteristics = some chars ∧
      chars.lookup s = some cc ∧ a'.currentCharacteristics = some cc ∧
      s ∈ a'.states := by
  have h1 : 1 ≤ ((pipeline d).2).dedup.length :=
    List.length_pos.mpr (fun h => hne (List.dedup_eq_nil _ |>.mp h))
  obtain ⟨out, hcore, _, hmem, _, hlook, _⟩ :=
    identifyCore_ok (pipeline d).2 kmeans (pipeline d).1 nStates hk hne
      (le_min hn h1)
  apply Exists.intro ({ a with states := out.states, stateCharacteristics := some out.characteristics, currentState := some out.currentState, currentCharacteristics := some out.currentCharacteristics })
  refine ⟨out.currentState, out.characteristics, out.currentCharacteristics,
    ?_, rfl, rfl, hlook, rfl, hmem⟩
  unfold identify_market_states
  simp only [hdata, hcore]

/-- Witness for C9: a single bar, one cluster. -/
theorem C9_current_state_always_keyed_witness :
    ∃ a' s chars cc, identify_market_states wPipeline wKmeans
        { data := some [⟨1, 1⟩], technicalIndicators := none, states := [],
          stateCharacteristics := none, currentState := none,
          currentCharacteristics := none, baseConfig := baseConfig,
          minSignalConfidence := 3/5 } 3 = .ok a' ∧
      a'.currentState = some s ∧ a'.stateCharacteristics = some chars ∧
      chars.lookup s = some cc ∧ a'.currentCharacteristics = some cc ∧
      s ∈ a'.states :=
  C9_current_state_always_keyed wPipeline wKmeans _ [⟨1, 1⟩] 3
    wKmeans_valid rfl (of_decide_eq_true (by with_unfolding_all rfl))
    (by norm_num)

/-- Claim C6 (confirmed): `identify_market_states` reads only the loaded
series (the clustering seed is fixed), so a second call with the same
`n_states` on the unchanged series succeeds and reproduces identical state
assignments and identical state characteristics (and the same current
state). -/
theorem C6_idempotent (pipeline : List Bar → List FeatureRow × List PcaPoint)
    (kmeans : ℕ → List PcaPoint → List ℕ) (a a1 : Analyzer) (nStates : ℕ)
    (h : identify_market_states pipeline kmeans a nStates = .ok a1) :
    ∃ a2, identify_market_states pipeline kmeans a1 nStates = .ok a2 ∧
      a2.states = a1.states ∧
      a2.stateCharacteristics = a1.stateCharacteristics ∧
      a2.currentState = a1.currentState ∧
      a2.currentCharacteristics = a1.currentCharacteristics := by
  unfold identify_market_states at h ⊢
  cases hd : a.data with
  | none => rw [hd] at h; exact absurd h (by simp)
  | some d =>
    simp only [hd] at h
    cases hc : identifyCore kmeans (pipeline d).2 (pipeline d).1 nStates with
    | error e =>
      simp only [hc] at h
      exact Except.noConfusion h
    | ok out =>
      simp only [hc, Except.ok.injEq] at h
      have hdata1 : a1.data = some d := by rw [← h]
      apply Exists.intro ({ a1 with states := out.states, stateCharacteristics := some out.characteristics, currentState := some out.currentState, currentCharacteristics := some out.currentCharacteristics })
      refine ⟨?_, ?_, ?_, ?_, ?_⟩
      · simp only [hdata1, hc]
      · show out.states = a1.states
        rw [← h]
      · show some out.characteristics = a1.stateCharacteristics
        rw [← h]
      · show some out.currentState = a1.currentState
        rw [← h]
      · show some out.currentCharacteristics = a1.currentCharacteristics
        rw [← h]

/-- Witness for C6: a one-bar series identified twice. -/
theorem C6_idempotent_witness :
    ∃ a2, identify_market_states wPipeline wKmeans
        { data := some [⟨1, 1⟩], technicalIndicators := none, states := [0],
          stateCharacteristics := some [(0, zeroChars)],
          currentState := some 0, currentCharacteristics := some zeroChars,
          baseConfig := baseConfig, minSignalConfidence := 3/5 } 3 = .ok a2 ∧
      a2.states = [0] ∧ a2.stateCharacteristics = some [(0, zeroChars)] ∧
      a2.currentState = some 0 ∧ a2.currentCharacteristics = some zeroChars :=
  C6_idempotent wPipeline wKmeans
    { data := some [⟨1, 1⟩], technicalIndicators := none, states := [],
      stateCharacteristics := none, currentState := none,
      currentCharacteristics := none, baseConfig := baseConfig,
      minSignalConfidence := 3/5 } _ 3 (by with_unfolding_all rfl)

/-- Claim C10 (code bug): on a freshly loaded 101-bar series with no
indicators computed and no state identified, `generate_trading_signals`
with the default `thresholds=None` auto-computes both prerequisites (no
not-ready `ValueError` is raised) but then fails with `KeyError('oversold')`
at the first loop bar, because the base configuration contains no
`oversold`/`overbought` keys for the signal loop to read: it does not
produce the signal series. -/
theorem C10_default_thresholds_keyerror :
    c10Run = .error (.keyError "oversold") := by
  with_unfolding_all rfl

end MarketAnalysisSpec
